import Mathlib

/-!
Verification development for the IV-monitor analysis core.

The Python source is shallowly embedded: machine floats are modelled as
exact rationals (`ℚ`) where the code only uses field arithmetic and
comparisons, and as reals (`ℝ`) where `math.exp` / `numpy` square roots
appear; Python `None` propagation is modelled with `Option`, and a Python
runtime exception (`TypeError`, raised by `None - float`) is modelled with
`Except`.  Instrument identifiers are modelled as the list of their
characters; the model of Python's `float(...)` string conversion covers
plain decimal literals (optional sign, digits, optional fractional part),
which is the shape of every strike field the system encounters.
-/

namespace IVMon

/-- Python `max(xs)` over a list with a default for the (guarded-out) empty
case: the running maximum of the list. -/
def pyMaxD {α : Type} [LinearOrder α] (l : List α) (dflt : α) : α :=
  match l with
  | [] => dflt
  | x :: xs => xs.foldl max x

/-- Python `min(xs)` over a list with a default for the (guarded-out) empty
case: the running minimum of the list. -/
def pyMinD {α : Type} [LinearOrder α] (l : List α) (dflt : α) : α :=
  match l with
  | [] => dflt
  | x :: xs => xs.foldl min x

/-- Auxiliary loop of Python's `min(iterable, key=...)`: keeps the earliest
element whose key is minimal (later elements replace only on a strictly
smaller key). -/
def pyMinByKeyAux {α : Type} (key : α → ℚ) : α → List α → α
  | best, [] => best
  | best, x :: xs =>
      if key x < key best then pyMinByKeyAux key x xs else pyMinByKeyAux key best xs

/-- Python `min(iterable, key=..., default=None)` over a rational-valued
key. -/
def pyMinByKey {α : Type} (key : α → ℚ) : List α → Option α
  | [] => none
  | x :: xs => some (pyMinByKeyAux key x xs)

/-- Variant of `pyMinByKeyAux` whose key can raise (Python `TypeError` from
`None - float`): the first failing key aborts the whole `min`. -/
def pyMinByKeyExAux {α : Type} (key : α → Except String ℚ) :
    α → ℚ → List α → Except String α
  | best, _, [] => Except.ok best
  | best, kbest, x :: xs =>
      match key x with
      | Except.error e => Except.error e
      | Except.ok kx =>
          if kx < kbest then pyMinByKeyExAux key x kx xs
          else pyMinByKeyExAux key best kbest xs

/-- Python `min(iterable, key=..., default=None)` where evaluating the key
may raise. -/
def pyMinByKeyEx {α : Type} (key : α → Except String ℚ) :
    List α → Except String (Option α)
  | [] => Except.ok none
  | x :: xs =>
      match key x with
      | Except.error e => Except.error e
      | Except.ok kx =>
          match pyMinByKeyExAux key x kx xs with
          | Except.error e => Except.error e
          | Except.ok b => Except.ok (some b)

/-- Python `str.split('-')` on the character list of a string. -/
def splitOnDash : List Char → List (List Char)
  | [] => [[]]
  | c :: rest =>
      match splitOnDash rest with
      | [] => [[c]]
      | g :: gs => if c = '-' then [] :: g :: gs else (c :: g) :: gs

/-- Numeric value of a decimal digit character, `none` on other characters. -/
def digitVal (c : Char) : Option ℕ :=
  if '0' ≤ c ∧ c ≤ '9' then some (c.toNat - '0'.toNat) else none

/-- Python `int(s)` on a character list, restricted to nonempty strings of
decimal digits (the only shape the YYMMDD expiry fields take). -/
def parseNatDigits (cs : List Char) : Option ℕ :=
  match cs with
  | [] => none
  | _ =>
      cs.foldl
        (fun acc c =>
          match acc, digitVal c with
          | some n, some d => some (n * 10 + d)
          | _, _ => none)
        (some 0)

/-- Digit-level decomposition of a plain decimal literal: negative sign,
integer-part digits, fraction-part digits, fraction length.  This is the
character-processing half of the model of Python `float(s)`. -/
def parseFloatParts (cs : List Char) : Option (Bool × ℕ × ℕ × ℕ) :=
  let (neg, body) :=
    match cs with
    | '-' :: rest => (true, rest)
    | '+' :: rest => (false, rest)
    | _ => (false, cs)
  let intPart := body.takeWhile (fun c => decide ('0' ≤ c ∧ c ≤ '9'))
  let rest := body.dropWhile (fun c => decide ('0' ≤ c ∧ c ≤ '9'))
  match rest with
  | [] =>
      match parseNatDigits intPart with
      | some n => some (neg, n, 0, 0)
      | none => none
  | '.' :: fracPart =>
      if fracPart.all (fun c => decide ('0' ≤ c ∧ c ≤ '9')) then
        match intPart, fracPart with
        | [], [] => none
        | _, _ =>
            some (neg, (parseNatDigits intPart).getD 0,
              (parseNatDigits fracPart).getD 0, fracPart.length)
      else none
  | _ => none

/-- Rational value of a decomposed decimal literal. -/
def floatVal (p : Bool × ℕ × ℕ × ℕ) : ℚ :=
  (if p.1 then (-1 : ℚ) else 1) * ((p.2.1 : ℚ) + (p.2.2.1 : ℚ) / ((10 : ℚ) ^ p.2.2.2))

/-- Python `float(s)` on a character list, restricted to plain decimal
literals: optional leading sign, digits, optional `.` and fraction digits
(at least one digit overall).  Strike fields are always of this shape. -/
def parseFloat (cs : List Char) : Option ℚ :=
  (parseFloatParts cs).map floatVal

/-- One options quote (a mark record): instrument identifier plus the
numeric fields the core reads.  Missing dict fields default to `0` in the
source (`mark.get(..., 0)`), so the fields are plain rationals here. -/
structure Quote where
  symbol : List Char
  markIV : ℚ := 0
  delta : ℚ := 0
  sumOpenInterest : ℚ := 0
  theta : ℚ := 0
  vega : ℚ := 0
  markPrice : ℚ := 0
deriving DecidableEq, Repr

/-- `StatisticalAnalyzer._get_strike_from_symbol`, character half: split the
identifier on dashes; with exactly four fields, decompose `parts[2]` as a
decimal literal; otherwise (or when the decomposition fails) `None`. -/
def strikeParts (symbol : List Char) : Option (Bool × ℕ × ℕ × ℕ) :=
  let parts := splitOnDash symbol
  if parts.length = 4 then parseFloatParts (parts.getD 2 []) else none

/-- `StatisticalAnalyzer._get_strike_from_symbol`, numeric value half:
`float(parts[2])` of a four-field identifier, `None` otherwise. -/
def get_strike_from_symbol (symbol : List Char) : Option ℚ :=
  (strikeParts symbol).map floatVal

/-- The `(strike, iv)` pairs the interpolator considers valid: mark IV
strictly positive and a resolvable strike, in input order. -/
def validPairs (marks : List Quote) : List (ℚ × ℚ) :=
  marks.filterMap (fun m =>
    match get_strike_from_symbol m.symbol with
    | some s => if (0 : ℚ) < m.markIV then some (s, m.markIV) else none
    | none => none)

/-- Sorting relation for `(strike, iv)` pairs: ascending strike. -/
def strikeLE (a b : ℚ × ℚ) : Prop := a.1 ≤ b.1

instance : DecidableRel strikeLE := fun a b => inferInstanceAs (Decidable (a.1 ≤ b.1))

instance : IsTotal (ℚ × ℚ) strikeLE := ⟨fun a b => le_total a.1 b.1⟩

instance : IsTrans (ℚ × ℚ) strikeLE := ⟨fun _ _ _ h h' => le_trans h h'⟩

/-- The bracket-scanning loop of `find_synthetic_atm_iv`: walk the sorted
pairs keeping the last strike `≤ spot` as the lower bracket, and stop at
the first strike `> spot` as the upper bracket. -/
def findBracket (spot : ℚ) : List (ℚ × ℚ) → Option (ℚ × ℚ) → Option (ℚ × ℚ) × Option (ℚ × ℚ)
  | [], low => (low, none)
  | p :: rest, low =>
      if p.1 ≤ spot then findBracket spot rest (some p) else (low, some p)

/-- The key Python evaluates in the no-valid-pairs fallback of
`find_synthetic_atm_iv`: `abs(strike(symbol) - spot)`, which raises a
`TypeError` when the strike is unresolvable (`None - float`). -/
def fallbackKey (spot : ℚ) (m : Quote) : Except String ℚ :=
  match get_strike_from_symbol m.symbol with
  | some s => Except.ok |s - spot|
  | none => Except.error "TypeError"

/-- `StatisticalAnalyzer.find_synthetic_atm_iv`: synthetic ATM IV by linear
interpolation between the two strikes bracketing the spot price, with the
source's fallbacks for fewer than two valid pairs and for one-sided
brackets.  A Python runtime exception is an `Except.error`. -/
def find_synthetic_atm_iv (marks_for_expiry : List Quote) (spot_price : ℚ) :
    Except String (ℚ × ℚ) :=
  let strikes_data := validPairs marks_for_expiry
  if strikes_data.length < 2 then
    match strikes_data with
    | p :: _ => Except.ok (p.2, p.1)
    | [] =>
        match pyMinByKeyEx (fallbackKey spot_price) marks_for_expiry with
        | Except.error e => Except.error e
        | Except.ok (some m) => Except.ok (m.markIV, spot_price)
        | Except.ok none => Except.ok (0, spot_price)
  else
    let sorted := List.insertionSort strikeLE strikes_data
    match findBracket spot_price sorted none with
    | (some lower, some upper) =>
        let total_range := upper.1 - lower.1
        let weight_lower := (upper.1 - spot_price) / total_range
        let weight_upper := (spot_price - lower.1) / total_range
        Except.ok (weight_lower * lower.2 + weight_upper * upper.2, spot_price)
    | (none, _) => Except.ok ((sorted.headI).2, (sorted.headI).1)
    | (some _, none) => Except.ok ((sorted.getLastI).2, (sorted.getLastI).1)

/-! ### Simple-mode alert tracker (`IVMonitor._check_simple_threshold`) -/

/-- The monitoring configuration fields the simple-mode tracker reads.
Defaults are the source's: `min_open_interest` 10000, `delta_min` 0.05,
`delta_max` 0.65, `iv_increase_threshold` 1.0 (`iv_threshold` is a
required key with no default). -/
structure SimpleCfg where
  iv_threshold : ℚ
  min_open_interest : ℚ := 10000
  iv_increase_threshold : ℚ := 1
  delta_min : ℚ := 1/20
  delta_max : ℚ := 13/20
deriving DecidableEq, Repr

/-- The per-quote trigger test of `_check_simple_threshold`: mark IV (as a
percentage) strictly above the threshold, open interest strictly above the
minimum, and absolute delta inside the sellable band (inclusive). -/
def qualifies (cfg : SimpleCfg) (m : Quote) : Bool :=
  decide (cfg.iv_threshold < m.markIV * 100) &&
  decide (cfg.min_open_interest < m.sumOpenInterest) &&
  decide (cfg.delta_min ≤ |m.delta|) && decide (|m.delta| ≤ cfg.delta_max)

/-- Tracker state for one expiry: `(last_alerted_iv, initial_alert_iv)`,
both `0` when the expiry is absent from the maps. -/
abbrev TrackerState := ℚ × ℚ

/-- The highest mark IV (as a percentage) among the triggered strikes. -/
def maxTriggeredIv (cfg : SimpleCfg) (marks : List Quote) : ℚ :=
  pyMaxD ((marks.filter (qualifies cfg)).map (fun m => m.markIV * 100)) 0

/-- One evaluation of `_check_simple_threshold` for one expiry: returns the
new `(last, initial)` state and whether an alert was sent.  Mirrors the
source: no qualifying strike means no transition; a drop of more than 2
percentage points below the initial alert IV clears both trackers without
alerting; a first qualifying observation (`last == 0`) or a rise of at
least `iv_increase_threshold` above `last` alerts and updates `last`
(and, on a first alert, `initial`). -/
def stepSimple (cfg : SimpleCfg) (st : TrackerState) (marks : List Quote) :
    TrackerState × Bool :=
  let triggered := marks.filter (qualifies cfg)
  if triggered = [] then (st, false)
  else
    let max_iv := pyMaxD (triggered.map (fun m => m.markIV * 100)) 0
    let last_iv := st.1
    let initial_iv := st.2
    if 0 < initial_iv ∧ max_iv < initial_iv - 2 then ((0, 0), false)
    else if last_iv = 0 ∨ last_iv + cfg.iv_increase_threshold ≤ max_iv then
      ((max_iv, if last_iv = 0 then max_iv else initial_iv), true)
    else (st, false)

/-- The tracker state for one expiry after a sequence of simple-mode
evaluations, starting from the empty maps (state `(0, 0)`). -/
def runSimple (cfg : SimpleCfg) (inputs : List (List Quote)) : TrackerState :=
  inputs.foldl (fun st marks => (stepSimple cfg st marks).1) (0, 0)

/-! ### Z-score / percentile statistics engine (`StatisticalAnalyzer`) -/

/-- One historical row as the statistics engine reads it: the stored
synthetic ATM IV (a fraction) and the row's timestamp in seconds. -/
structure HistRow where
  synthetic_atm_iv : ℝ
  timestamp : ℝ
deriving Inhabited

/-- `StatisticalAnalyzer` configuration; defaults are the source's. -/
structure AnalyzerCfg where
  z_score_threshold : ℝ := 2
  min_samples : ℕ := 10
  min_history_hours : ℝ := 4

/-- The output record of `calculate_statistics` (`IVStatistics` in the
source). -/
structure IVStatistics where
  expiry_date : String
  current_iv : ℝ
  mean_iv : ℝ
  std_dev : ℝ
  z_score : ℝ
  iv_percentile : ℝ
  daily_low_iv : ℝ
  daily_high_iv : ℝ
  call_25d_iv : ℝ
  put_25d_iv : ℝ
  skew_direction : String
  sample_count : ℕ
  is_abnormal : Bool

/-- The time span, in hours, between the oldest and newest history
timestamps (`(newest - oldest).total_seconds() / 3600`). -/
noncomputable def timeSpanHours (iv_history : List HistRow) : ℝ :=
  let timestamps := iv_history.map (fun r => r.timestamp)
  (pyMaxD timestamps 0 - pyMinD timestamps 0) / 3600

/-- `np.mean` of a list of reals. -/
noncomputable def npMean (values : List ℝ) : ℝ := values.sum / values.length

/-- `np.std(values, ddof=1)`: the Bessel-corrected (divisor `n - 1`) sample
standard deviation. -/
noncomputable def npStdDdof1 (values : List ℝ) : ℝ :=
  Real.sqrt ((values.map (fun x => (x - npMean values) ^ 2)).sum / (values.length - 1))

open Classical in
/-- `StatisticalAnalyzer.calculate_statistics`: guard on sample count, then
on history time span, then compute mean, sample standard deviation,
Z-score, percentile, skew direction and the abnormality flag.  All IV-like
outputs are multiplied by 100. -/
noncomputable def calculate_statistics (cfg : AnalyzerCfg) (iv_history : List HistRow)
    (current_iv current_call_25d_iv current_put_25d_iv : ℝ) (expiry_date : String) :
    Option IVStatistics :=
  if iv_history.length < cfg.min_samples then none
  else if iv_history ≠ [] ∧ timeSpanHours iv_history < cfg.min_history_hours then none
  else
    let iv_values := iv_history.map (fun r => r.synthetic_atm_iv)
    let mean_iv := npMean iv_values
    let std_dev := npStdDdof1 iv_values
    let z_score := if 1e-6 < std_dev then (current_iv - mean_iv) / std_dev else 0
    let daily_low := pyMinD iv_values 0
    let daily_high := pyMaxD iv_values 0
    let iv_range := daily_high - daily_low
    let iv_percentile :=
      if 1e-6 < iv_range then
        max 0 (min 100 ((current_iv - daily_low) / iv_range * 100))
      else 50
    let skew_direction :=
      if current_put_25d_iv * 1.05 < current_call_25d_iv then "Calls > Puts (Bullish Vol)"
      else if current_call_25d_iv * 1.05 < current_put_25d_iv then "Puts > Calls (Bearish Vol)"
      else "Balanced"
    some
      { expiry_date := expiry_date
        current_iv := current_iv * 100
        mean_iv := mean_iv * 100
        std_dev := std_dev * 100
        z_score := z_score
        iv_percentile := iv_percentile
        daily_low_iv := daily_low * 100
        daily_high_iv := daily_high * 100
        call_25d_iv := current_call_25d_iv * 100
        put_25d_iv := current_put_25d_iv * 100
        skew_direction := skew_direction
        sample_count := iv_values.length
        is_abnormal := decide (cfg.z_score_threshold < z_score) }

/-! ### Forward price, forward delta, dual-system 25-delta skew -/

/-- `StatisticalAnalyzer.calculate_forward_price`:
`F = S * exp((0 - funding_rate*3*365) * T)`. -/
noncomputable def calculate_forward_price (perp_mark_price funding_rate
    time_to_expiry_years : ℝ) : ℝ :=
  let funding_rate_annual := funding_rate * 3 * 365
  perp_mark_price * Real.exp ((0 - funding_rate_annual) * time_to_expiry_years)

/-- `StatisticalAnalyzer.calculate_forward_delta`:
`forward_delta = spot_delta * (S / F)`. -/
noncomputable def calculate_forward_delta (spot_delta perp_mark_price forward_price : ℝ) : ℝ :=
  spot_delta * (perp_mark_price / forward_price)

/-- Real-keyed variant of the Python `min(..., key=...)` loop (the dual
skew calculator compares real-valued forward deltas). -/
noncomputable def pyMinByKeyRAux {α : Type} (key : α → ℝ) : α → List α → α
  | best, [] => best
  | best, x :: xs =>
      if key x < key best then pyMinByKeyRAux key x xs else pyMinByKeyRAux key best xs

/-- Real-keyed Python `min(iterable, key=..., default=None)`. -/
noncomputable def pyMinByKeyR {α : Type} (key : α → ℝ) : List α → Option α
  | [] => none
  | x :: xs => some (pyMinByKeyRAux key x xs)

/-- Python `symbol.endswith(two-character suffix)`. -/
def endsWith2 (a b : Char) (s : List Char) : Bool :=
  match s.reverse with
  | y :: x :: _ => decide (x = a) && decide (y = b)
  | _ => false

/-- Spot-system 25-delta selection: the quote whose absolute (as-reported)
delta is nearest to 0.25, earliest quote winning ties. -/
noncomputable def spotSel (ms : List Quote) : Option Quote :=
  pyMinByKeyR (fun m => |(|(m.delta : ℝ)|) - 0.25|) ms

/-- Forward-system 25-delta selection: transform every quote's absolute
delta into a forward delta, then pick nearest to 0.25 (source builds the
`(quote, forward_delta)` pair list and minimises over the second
component). -/
noncomputable def fwdSel (perp_mark_price forward_price : ℝ) (ms : List Quote) : Option Quote :=
  (pyMinByKeyR (fun x => |x.2 - 0.25|)
    (ms.map (fun m =>
      (m, calculate_forward_delta (|(m.delta : ℝ)|) perp_mark_price forward_price)))).map
    Prod.fst

/-- The output record of `find_25delta_ivs_dual_system`.  Strike fields
hold `none` for Python `None` (unresolvable symbol of a selected quote)
and `some 0` when no quote was selected. -/
structure SkewComparison where
  spot_call_25d_iv : ℝ
  spot_put_25d_iv : ℝ
  spot_skew : ℝ
  forward_call_25d_iv : ℝ
  forward_put_25d_iv : ℝ
  forward_skew : ℝ
  ghost_skew : ℝ
  forward_price : ℝ
  spot_call_strike : Option ℚ
  spot_put_strike : Option ℚ
  forward_call_strike : Option ℚ
  forward_put_strike : Option ℚ

/-- IV of a selected quote, `0.0` when nothing was selected. -/
noncomputable def selIv (sel : Option Quote) : ℝ :=
  match sel with
  | some m => (m.markIV : ℝ)
  | none => 0

/-- Strike of a selected quote (`None` propagates), `0` when nothing was
selected. -/
def selStrike (sel : Option Quote) : Option ℚ :=
  match sel with
  | some m => get_strike_from_symbol m.symbol
  | none => some 0

/-- `StatisticalAnalyzer.find_25delta_ivs_dual_system`: 25-delta call/put
selection and skew under both the spot-delta and forward-delta reference
frames, plus their divergence (ghost skew). -/
noncomputable def find_25delta_ivs_dual_system (marks_for_expiry : List Quote)
    (perp_mark_price funding_rate time_to_expiry_years : ℝ) : SkewComparison :=
  let calls := marks_for_expiry.filter (fun m => endsWith2 '-' 'C' m.symbol)
  let puts := marks_for_expiry.filter (fun m => endsWith2 '-' 'P' m.symbol)
  let forward_price := calculate_forward_price perp_mark_price funding_rate time_to_expiry_years
  let spot_call_25d := spotSel calls
  let spot_put_25d := spotSel puts
  let forward_call_25d := fwdSel perp_mark_price forward_price calls
  let forward_put_25d := fwdSel perp_mark_price forward_price puts
  let spot_call_iv := selIv spot_call_25d
  let spot_put_iv := selIv spot_put_25d
  let forward_call_iv := selIv forward_call_25d
  let forward_put_iv := selIv forward_put_25d
  let spot_skew := (spot_call_iv - spot_put_iv) * 100
  let forward_skew := (forward_call_iv - forward_put_iv) * 100
  { spot_call_25d_iv := spot_call_iv * 100
    spot_put_25d_iv := spot_put_iv * 100
    spot_skew := spot_skew
    forward_call_25d_iv := forward_call_iv * 100
    forward_put_25d_iv := forward_put_iv * 100
    forward_skew := forward_skew
    ghost_skew := spot_skew - forward_skew
    forward_price := forward_price
    spot_call_strike := selStrike spot_call_25d
    spot_put_strike := selStrike spot_put_25d
    forward_call_strike := selStrike forward_call_25d
    forward_put_strike := selStrike forward_put_25d }

/-! ### Calendar model and opportunity ranker
(`StatisticalAnalyzer._get_days_to_expiry` / `get_smart_sellable_strikes`)

Python `datetime` values are modelled by their day number: days elapsed
since 2000-01-01 (every expiry the YYMMDD parser can produce lies in
2000–2099).  "Now" (`datetime.utcnow()`) is a parameter, in seconds since
2000-01-01T00:00:00 UTC. -/

/-- Gregorian leap-year rule. -/
def isLeap (y : ℕ) : Bool :=
  y % 4 = 0 && (y % 100 ≠ 0 || y % 400 = 0)

/-- Length of a month (1–12) in a leap/non-leap year. -/
def monthDays (leap : Bool) (m : ℕ) : ℕ :=
  match m with
  | 1 => 31 | 2 => if leap then 29 else 28 | 3 => 31 | 4 => 30 | 5 => 31 | 6 => 30
  | 7 => 31 | 8 => 31 | 9 => 30 | 10 => 31 | 11 => 30 | 12 => 31
  | _ => 0

/-- Days from 2000-01-01 to the first of January `2000 + n`. -/
def daysBeforeYear : ℕ → ℕ
  | 0 => 0
  | n + 1 => daysBeforeYear n + (if isLeap (2000 + n) then 366 else 365)

/-- Days from the first of January to the first of month `m` in a
leap/non-leap year. -/
def daysBeforeMonth (leap : Bool) (m : ℕ) : ℕ :=
  (List.range (m - 1)).foldl (fun acc i => acc + monthDays leap (i + 1)) 0

/-- `datetime(year, month, day)` as a day number since 2000-01-01, `none`
exactly when Python raises `ValueError` (the YYMMDD parser only produces
years 2000–2099, all inside `datetime`'s own year range). -/
def datetimeDayNumber (y m d : ℕ) : Option ℕ :=
  if 2000 ≤ y ∧ 1 ≤ m ∧ m ≤ 12 ∧ 1 ≤ d ∧ d ≤ monthDays (isLeap y) m then
    some (daysBeforeYear (y - 2000) + daysBeforeMonth (isLeap y) m + (d - 1))
  else none

/-- The YYMMDD parsing half of `StatisticalAnalyzer._get_days_to_expiry`:
the expiry's day number from a four-field identifier via
`int(e[:2]) / int(e[2:4]) / int(e[4:6])`, `none` when any conversion or
`datetime` construction fails. -/
def parseExpiryDayNumber (symbol : List Char) : Option ℕ :=
  let parts := splitOnDash symbol
  if parts.length = 4 then
    let e := parts.getD 1 []
    match parseNatDigits (e.take 2), parseNatDigits ((e.drop 2).take 2),
        parseNatDigits ((e.drop 4).take 2) with
    | some yy, some mm, some dd => datetimeDayNumber (2000 + yy) mm dd
    | _, _, _ => none
  else none

/-- `StatisticalAnalyzer._get_days_to_expiry`:
`max(1, (expiry_midnight - utcnow()).days)` — the `timedelta.days` field
floors the signed second difference toward minus infinity. -/
def get_days_to_expiry (now : ℚ) (symbol : List Char) : Option ℤ :=
  (parseExpiryDayNumber symbol).map
    (fun (e : ℕ) => max 1 ⌊(((e : ℚ) * 86400) - now) / 86400⌋)

/-- Modelled from the spec's wording for the Opportunity Ranker's
days-to-expiry ("parsed expiry date minus current UTC date at midnight",
floored at 1): the calendar-date difference between the expiry and the
current UTC day. -/
def specDaysMidnight (now : ℚ) (symbol : List Char) : Option ℤ :=
  (parseExpiryDayNumber symbol).map (fun (e : ℕ) => max 1 ((e : ℤ) - ⌊now / 86400⌋))

/-- One row of the opportunity ranker's output. -/
structure SellableEntry where
  symbol : List Char
  iv : ℚ
  delta : ℚ
  theta : ℚ
  vega : ℚ
  mark_price : ℚ
  days_to_expiry : ℤ
  daily_rent_pct : ℚ
  opportunity_score : ℚ
deriving DecidableEq, Repr

/-- The per-quote body of the `get_smart_sellable_strikes` loop: delta-band
filter, days-to-expiry parse-and-positivity filter, then the daily-rent and
opportunity-score metrics. -/
def entryOf (now : ℚ) (spot_price delta_min delta_max : ℚ) (m : Quote) :
    Option SellableEntry :=
  let delta := |m.delta|
  if delta < delta_min ∨ delta_max < delta then none
  else
    let iv := m.markIV * 100
    let theta := |m.theta|
    let vega := m.vega
    let mark_price := m.markPrice
    match get_days_to_expiry now m.symbol with
    | none => none
    | some days_to_expiry =>
        if days_to_expiry ≤ 0 then none
        else
          let daily_rent_pct :=
            if 0 < spot_price then mark_price / spot_price / (days_to_expiry : ℚ) * 100
            else 0
          let opportunity_score := if 0 < vega then theta / vega * iv else iv
          some
            { symbol := m.symbol, iv := iv, delta := delta, theta := theta, vega := vega
              mark_price := mark_price, days_to_expiry := days_to_expiry
              daily_rent_pct := daily_rent_pct, opportunity_score := opportunity_score }

/-- Descending-score ordering for the ranker's final sort. -/
def scoreGE (a b : SellableEntry) : Prop := b.opportunity_score ≤ a.opportunity_score

instance : DecidableRel scoreGE :=
  fun a b => inferInstanceAs (Decidable (b.opportunity_score ≤ a.opportunity_score))

instance : IsTotal SellableEntry scoreGE := ⟨fun a b => le_total b.opportunity_score a.opportunity_score⟩

instance : IsTrans SellableEntry scoreGE := ⟨fun _ _ _ h h' => le_trans h' h⟩

/-- `StatisticalAnalyzer.get_smart_sellable_strikes`: collect the surviving
quotes' entries in input order, then sort by opportunity score, best first
(Python's stable `sort(reverse=True)`). -/
def get_smart_sellable_strikes (now : ℚ) (all_marks : List Quote) (spot_price : ℚ)
    (delta_min : ℚ := 1/20) (delta_max : ℚ := 13/20) : List SellableEntry :=
  List.insertionSort scoreGE (all_marks.filterMap (entryOf now spot_price delta_min delta_max))

/-! ### Lemmas about the simple-mode tracker -/

theorem foldl_max_le_mono {xs : List ℚ} {a b : ℚ} (h : a ≤ b) :
    xs.foldl max a ≤ xs.foldl max b := by
  induction xs generalizing a b with
  | nil => simpa using h
  | cons x xs ih => exact ih (max_le_max h le_rfl)

theorem le_foldl_max (xs : List ℚ) (a : ℚ) : a ≤ xs.foldl max a := by
  induction xs generalizing a with
  | nil => simp
  | cons x xs ih => exact le_trans (le_max_left a x) (ih (max a x))

theorem mem_le_foldl_max {xs : List ℚ} {a x : ℚ} (hx : x ∈ xs) : x ≤ xs.foldl max a := by
  induction xs generalizing a with
  | nil => cases hx
  | cons y ys ih =>
      rcases List.mem_cons.1 hx with rfl | hmem
      · exact le_trans (le_max_right a x) (le_foldl_max ys (max a x))
      · exact ih hmem

/-- Whenever some quote qualifies, the maximum triggered IV is strictly
above the flat threshold. -/
theorem maxTriggeredIv_gt_threshold {cfg : SimpleCfg} {marks : List Quote}
    (hq : marks.filter (qualifies cfg) ≠ []) :
    cfg.iv_threshold < maxTriggeredIv cfg marks := by
  rcases hne : marks.filter (qualifies cfg) with _ | ⟨m, rest⟩
  · exact absurd hne hq
  · have hm : m ∈ marks.filter (qualifies cfg) := by rw [hne]; exact List.mem_cons_self _ _
    have hmq : qualifies cfg m = true := (List.mem_filter.1 hm).2
    have hthr : cfg.iv_threshold < m.markIV * 100 := by
      simp only [qualifies, Bool.and_eq_true, decide_eq_true_eq] at hmq
      exact hmq.1.1.1
    have hmax : m.markIV * 100 ≤ maxTriggeredIv cfg marks := by
      unfold maxTriggeredIv
      rw [hne]
      simp only [List.map_cons, pyMaxD]
      exact le_foldl_max _ _
    exact lt_of_lt_of_le hthr hmax

theorem maxTriggeredIv_def (cfg : SimpleCfg) (marks : List Quote) :
    pyMaxD ((marks.filter (qualifies cfg)).map (fun m => m.markIV * 100)) 0 =
      maxTriggeredIv cfg marks := rfl

theorem stepSimple_no_trigger {cfg : SimpleCfg} {st : TrackerState} {marks : List Quote}
    (h : marks.filter (qualifies cfg) = []) : stepSimple cfg st marks = (st, false) := by
  simp [stepSimple, h]

theorem stepSimple_reset {cfg : SimpleCfg} {st : TrackerState} {marks : List Quote}
    (hq : marks.filter (qualifies cfg) ≠ [])
    (hr : 0 < st.2 ∧ maxTriggeredIv cfg marks < st.2 - 2) :
    stepSimple cfg st marks = ((0, 0), false) := by
  simp only [stepSimple, maxTriggeredIv_def]
  rw [if_neg hq, if_pos hr]

theorem stepSimple_first_alert {cfg : SimpleCfg} {st : TrackerState} {marks : List Quote}
    (hq : marks.filter (qualifies cfg) ≠ [])
    (hr : ¬(0 < st.2 ∧ maxTriggeredIv cfg marks < st.2 - 2)) (h0 : st.1 = 0) :
    stepSimple cfg st marks = ((maxTriggeredIv cfg marks, maxTriggeredIv cfg marks), true) := by
  simp only [stepSimple, maxTriggeredIv_def]
  rw [if_neg hq, if_neg hr, if_pos (Or.inl h0), if_pos h0]

theorem stepSimple_rise_alert {cfg : SimpleCfg} {st : TrackerState} {marks : List Quote}
    (hq : marks.filter (qualifies cfg) ≠ [])
    (hr : ¬(0 < st.2 ∧ maxTriggeredIv cfg marks < st.2 - 2)) (h0 : st.1 ≠ 0)
    (hrise : st.1 + cfg.iv_increase_threshold ≤ maxTriggeredIv cfg marks) :
    stepSimple cfg st marks = ((maxTriggeredIv cfg marks, st.2), true) := by
  simp only [stepSimple, maxTriggeredIv_def]
  rw [if_neg hq, if_neg hr, if_pos (Or.inr hrise), if_neg h0]

theorem stepSimple_hold {cfg : SimpleCfg} {st : TrackerState} {marks : List Quote}
    (hq : marks.filter (qualifies cfg) ≠ [])
    (hr : ¬(0 < st.2 ∧ maxTriggeredIv cfg marks < st.2 - 2)) (h0 : st.1 ≠ 0)
    (hsmall : maxTriggeredIv cfg marks < st.1 + cfg.iv_increase_threshold) :
    stepSimple cfg st marks = (st, false) := by
  simp only [stepSimple, maxTriggeredIv_def]
  rw [if_neg hq, if_neg hr, if_neg]
  push_neg
  exact ⟨h0, hsmall⟩

/-- The coherence invariant: either fully idle, or a positive baseline not
above the last-alerted IV. -/
def TrackerInv (st : TrackerState) : Prop :=
  (st.1 = 0 ∧ st.2 = 0) ∨ (0 < st.2 ∧ st.2 ≤ st.1)

theorem trackerInv_step {cfg : SimpleCfg} (hthr : 0 ≤ cfg.iv_threshold)
    (hinc : 0 ≤ cfg.iv_increase_threshold) {st : TrackerState} (hst : TrackerInv st)
    (marks : List Quote) : TrackerInv (stepSimple cfg st marks).1 := by
  by_cases hq : marks.filter (qualifies cfg) = []
  · rw [stepSimple_no_trigger hq]; exact hst
  · have hmax : cfg.iv_threshold < maxTriggeredIv cfg marks := maxTriggeredIv_gt_threshold hq
    have hmaxpos : 0 < maxTriggeredIv cfg marks := lt_of_le_of_lt hthr hmax
    by_cases hr : 0 < st.2 ∧ maxTriggeredIv cfg marks < st.2 - 2
    · rw [stepSimple_reset hq hr]
      exact Or.inl ⟨rfl, rfl⟩
    · by_cases h0 : st.1 = 0
      · rw [stepSimple_first_alert hq hr h0]
        exact Or.inr ⟨hmaxpos, le_rfl⟩
      · rcases hst with ⟨h1, _⟩ | ⟨hpos, hle⟩
        · exact absurd h1 h0
        · by_cases hrise : st.1 + cfg.iv_increase_threshold ≤ maxTriggeredIv cfg marks
          · rw [stepSimple_rise_alert hq hr h0 hrise]
            refine Or.inr ⟨hpos, ?_⟩
            calc st.2 ≤ st.1 := hle
              _ ≤ st.1 + cfg.iv_increase_threshold := le_add_of_nonneg_right hinc
              _ ≤ maxTriggeredIv cfg marks := hrise
          · rw [stepSimple_hold hq hr h0 (lt_of_not_le hrise)]
            exact Or.inr ⟨hpos, hle⟩

/-- Simple-mode scenario configuration: flat threshold 45, all other
monitoring knobs at their defaults (increase threshold 1.0). -/
def cfg45 : SimpleCfg := { iv_threshold := 45 }

/-- A scenario quote with the given mark IV (fraction), delta 0.3 and open
interest 20000 (comfortably inside the default filters). -/
def scnQuote (iv : ℚ) : Quote :=
  { symbol := ['B', 'T', 'C', '-', '2', '6', '0', '1', '3', '0', '-', '9', '5', '0', '0', '0', '-', 'C']
    markIV := iv
    delta := 3/10
    sumOpenInterest := 20000 }

theorem scnQuote_qualifies (iv : ℚ) (h : 45 < iv * 100) :
    qualifies cfg45 (scnQuote iv) = true := by
  simp only [qualifies, scnQuote, cfg45, Bool.and_eq_true, decide_eq_true_eq]
  have habs : |(3/10 : ℚ)| = 3/10 := abs_of_pos (by norm_num)
  exact ⟨⟨⟨h, by norm_num⟩, by rw [habs]; norm_num⟩, by rw [habs]; norm_num⟩

theorem scnQuote_filter (iv : ℚ) (h : 45 < iv * 100) :
    [scnQuote iv].filter (qualifies cfg45) = [scnQuote iv] := by
  simp [List.filter_cons, scnQuote_qualifies iv h]

theorem scnQuote_maxIv (iv : ℚ) (h : 45 < iv * 100) :
    maxTriggeredIv cfg45 [scnQuote iv] = iv * 100 := by
  unfold maxTriggeredIv
  rw [scnQuote_filter iv h]
  simp [pyMaxD, scnQuote]

/-- C1: simple-mode alert tracker.  For every evaluation with at least one
qualifying quote (mark IV above the flat threshold, open interest above the
minimum, absolute delta inside the sellable band) and `max_iv` the highest
qualifying IV: if `initial > 0` and `max_iv < initial - 2.0`, both trackers
clear and no alert is emitted; otherwise `last == 0` alerts and sets both
trackers to `max_iv`; otherwise `max_iv ≥ last + increase_threshold` alerts,
sets `last := max_iv` and leaves `initial` unchanged; otherwise nothing
changes and no alert is emitted.  With no qualifying quote there is no
transition.  The progressive scenario (46.2 alert / 46.9 hold / 47.5 alert)
and the reset scenario (initial 60.0, 57.5 clears both; the next qualifying
observation alerts first-time) hold concretely at threshold 45. -/
theorem claim_C1 :
    (∀ (cfg : SimpleCfg) (st : TrackerState) (marks : List Quote),
        marks.filter (qualifies cfg) = [] → stepSimple cfg st marks = (st, false)) ∧
    (∀ (cfg : SimpleCfg) (st : TrackerState) (marks : List Quote),
        marks.filter (qualifies cfg) ≠ [] →
        (0 < st.2 ∧ maxTriggeredIv cfg marks < st.2 - 2 →
            stepSimple cfg st marks = ((0, 0), false)) ∧
        (¬(0 < st.2 ∧ maxTriggeredIv cfg marks < st.2 - 2) → st.1 = 0 →
            stepSimple cfg st marks =
              ((maxTriggeredIv cfg marks, maxTriggeredIv cfg marks), true)) ∧
        (¬(0 < st.2 ∧ maxTriggeredIv cfg marks < st.2 - 2) → st.1 ≠ 0 →
            st.1 + cfg.iv_increase_threshold ≤ maxTriggeredIv cfg marks →
            stepSimple cfg st marks = ((maxTriggeredIv cfg marks, st.2), true)) ∧
        (¬(0 < st.2 ∧ maxTriggeredIv cfg marks < st.2 - 2) → st.1 ≠ 0 →
            maxTriggeredIv cfg marks < st.1 + cfg.iv_increase_threshold →
            stepSimple cfg st marks = (st, false))) ∧
    (stepSimple cfg45 (0, 0) [scnQuote (231/500)] = ((231/5, 231/5), true) ∧
     stepSimple cfg45 (231/5, 231/5) [scnQuote (469/1000)] = ((231/5, 231/5), false) ∧
     stepSimple cfg45 (231/5, 231/5) [scnQuote (19/40)] = ((95/2, 231/5), true)) ∧
    (stepSimple cfg45 (60, 60) [scnQuote (23/40)] = ((0, 0), false) ∧
     stepSimple cfg45 (0, 0) [scnQuote (23/40)] = ((115/2, 115/2), true)) := by
  have hfil : ∀ iv : ℚ, 45 < iv * 100 → [scnQuote iv].filter (qualifies cfg45) ≠ [] := by
    intro iv h
    rw [scnQuote_filter iv h]
    simp
  refine ⟨fun cfg st marks h => stepSimple_no_trigger h,
    fun cfg st marks hq =>
      ⟨fun hr => stepSimple_reset hq hr,
       fun hr h0 => stepSimple_first_alert hq hr h0,
       fun hr h0 hrise => stepSimple_rise_alert hq hr h0 hrise,
       fun hr h0 hsmall => stepSimple_hold hq hr h0 hsmall⟩,
    ⟨?_, ?_, ?_⟩, ⟨?_, ?_⟩⟩
  · have hq := hfil (231/500) (by norm_num)
    have hm := scnQuote_maxIv (231/500) (by norm_num)
    rw [stepSimple_first_alert hq (by rw [hm]; norm_num) rfl, hm]
    norm_num
  · have hq := hfil (469/1000) (by norm_num)
    have hm := scnQuote_maxIv (469/1000) (by norm_num)
    rw [stepSimple_hold hq (by rw [hm]; norm_num) (by norm_num) (by rw [hm]; simp [cfg45]; norm_num)]
  · have hq := hfil (19/40) (by norm_num)
    have hm := scnQuote_maxIv (19/40) (by norm_num)
    rw [stepSimple_rise_alert hq (by rw [hm]; norm_num) (by norm_num)
      (by rw [hm]; simp [cfg45]; norm_num), hm]
    norm_num
  · have hq := hfil (23/40) (by norm_num)
    have hm := scnQuote_maxIv (23/40) (by norm_num)
    exact stepSimple_reset hq (by rw [hm]; norm_num)
  · have hq := hfil (23/40) (by norm_num)
    have hm := scnQuote_maxIv (23/40) (by norm_num)
    rw [stepSimple_first_alert hq (by rw [hm]; norm_num) rfl, hm]
    norm_num

/-- Witness for C1 at a concrete input: the first cycle of the progressive
scenario, through the general transition description. -/
theorem claim_C1_witness :
    stepSimple cfg45 (0, 0) [scnQuote (231/500)] =
      ((maxTriggeredIv cfg45 [scnQuote (231/500)], maxTriggeredIv cfg45 [scnQuote (231/500)]),
        true) := by
  refine (claim_C1.2.1 cfg45 (0, 0) [scnQuote (231/500)] ?_).2.1 ?_ rfl
  · rw [scnQuote_filter (231/500) (by norm_num)]
    simp
  · rw [scnQuote_maxIv (231/500) (by norm_num)]
    norm_num

/-- C10: tracker-state coherence invariant.  Starting from the empty maps,
after any sequence of simple-mode evaluations (with a nonnegative flat
threshold and a nonnegative increase threshold, as in every real
configuration), the stored last-alerted IV is 0 exactly when the stored
initial IV is 0, and when both are nonzero the last-alerted IV is at least
the initial baseline. -/
theorem claim_C10 (cfg : SimpleCfg) (hthr : 0 ≤ cfg.iv_threshold)
    (hinc : 0 ≤ cfg.iv_increase_threshold) (inputs : List (List Quote)) :
    ((runSimple cfg inputs).1 = 0 ↔ (runSimple cfg inputs).2 = 0) ∧
    ((runSimple cfg inputs).1 ≠ 0 → (runSimple cfg inputs).2 ≠ 0 →
      (runSimple cfg inputs).2 ≤ (runSimple cfg inputs).1) := by
  have hinv : TrackerInv (runSimple cfg inputs) := by
    unfold runSimple
    have hfold : ∀ st, TrackerInv st →
        TrackerInv (inputs.foldl (fun st ms => (stepSimple cfg st ms).1) st) := by
      induction inputs with
      | nil => exact fun st h => h
      | cons ms rest ih => exact fun st h => ih _ (trackerInv_step hthr hinc h ms)
    exact hfold (0, 0) (Or.inl ⟨rfl, rfl⟩)
  rcases hinv with ⟨h1, h2⟩ | ⟨hpos, hle⟩
  · exact ⟨by rw [h1, h2], fun hl _ => absurd h1 hl⟩
  · have h2ne : (runSimple cfg inputs).2 ≠ 0 := ne_of_gt hpos
    have h1ne : (runSimple cfg inputs).1 ≠ 0 := ne_of_gt (lt_of_lt_of_le hpos hle)
    exact ⟨⟨fun h => absurd h h1ne, fun h => absurd h h2ne⟩, fun _ _ => hle⟩

/-- Witness for C10 at a concrete input: the default-style configuration
with threshold 45 and a two-cycle input sequence. -/
theorem claim_C10_witness :
    ((runSimple cfg45 [[scnQuote (231/500)], [scnQuote (19/40)]]).1 = 0 ↔
      (runSimple cfg45 [[scnQuote (231/500)], [scnQuote (19/40)]]).2 = 0) ∧
    ((runSimple cfg45 [[scnQuote (231/500)], [scnQuote (19/40)]]).1 ≠ 0 →
      (runSimple cfg45 [[scnQuote (231/500)], [scnQuote (19/40)]]).2 ≠ 0 →
      (runSimple cfg45 [[scnQuote (231/500)], [scnQuote (19/40)]]).2 ≤
        (runSimple cfg45 [[scnQuote (231/500)], [scnQuote (19/40)]]).1) :=
  claim_C10 cfg45 (by norm_num [cfg45]) (by norm_num [cfg45]) _

/-! ### Lemmas about the statistics engine -/

theorem foldl_max_le_mono' {α : Type} [LinearOrder α] {xs : List α} {a b : α} (h : a ≤ b) :
    xs.foldl max a ≤ xs.foldl max b := by
  induction xs generalizing a b with
  | nil => simpa using h
  | cons x xs ih => exact ih (max_le_max h le_rfl)

theorem le_foldl_max' {α : Type} [LinearOrder α] (xs : List α) (a : α) : a ≤ xs.foldl max a := by
  induction xs generalizing a with
  | nil => simp
  | cons x xs ih => exact le_trans (le_max_left a x) (ih (max a x))

theorem foldl_min_le' {α : Type} [LinearOrder α] (xs : List α) (a : α) : xs.foldl min a ≤ a := by
  induction xs generalizing a with
  | nil => simp
  | cons x xs ih => exact le_trans (ih (min a x)) (min_le_left a x)

/-- The running maximum of `a :: xs` is `a` or an element of `xs`. -/
theorem foldl_max_mem {α : Type} [LinearOrder α] (xs : List α) (a : α) :
    xs.foldl max a = a ∨ xs.foldl max a ∈ xs := by
  induction xs generalizing a with
  | nil => exact Or.inl rfl
  | cons x xs ih =>
      rcases ih (max a x) with h | h
      · rcases max_choice a x with hm | hm
        · exact Or.inl (by rw [List.foldl_cons, h, hm])
        · exact Or.inr (by rw [List.foldl_cons, h, hm]; exact List.mem_cons_self _ _)
      · exact Or.inr (List.mem_cons_of_mem _ h)

/-- The running minimum of `a :: xs` is `a` or an element of `xs`. -/
theorem foldl_min_mem {α : Type} [LinearOrder α] (xs : List α) (a : α) :
    xs.foldl min a = a ∨ xs.foldl min a ∈ xs := by
  induction xs generalizing a with
  | nil => exact Or.inl rfl
  | cons x xs ih =>
      rcases ih (min a x) with h | h
      · rcases min_choice a x with hm | hm
        · exact Or.inl (by rw [List.foldl_cons, h, hm])
        · exact Or.inr (by rw [List.foldl_cons, h, hm]; exact List.mem_cons_self _ _)
      · exact Or.inr (List.mem_cons_of_mem _ h)

theorem pyMaxD_mem {α : Type} [LinearOrder α] {l : List α} (h : l ≠ []) (dflt : α) :
    pyMaxD l dflt ∈ l := by
  cases l with
  | nil => exact absurd rfl h
  | cons x xs =>
      simp only [pyMaxD]
      rcases foldl_max_mem xs x with h | h
      · rw [h]; exact List.mem_cons_self _ _
      · exact List.mem_cons_of_mem _ h

theorem pyMinD_mem {α : Type} [LinearOrder α] {l : List α} (h : l ≠ []) (dflt : α) :
    pyMinD l dflt ∈ l := by
  cases l with
  | nil => exact absurd rfl h
  | cons x xs =>
      simp only [pyMinD]
      rcases foldl_min_mem xs x with h | h
      · rw [h]; exact List.mem_cons_self _ _
      · exact List.mem_cons_of_mem _ h

/-- The body of `calculate_statistics` once both guards have passed. -/
theorem calculate_statistics_eq (cfg : AnalyzerCfg) (hist : List HistRow)
    (cur c25 p25 : ℝ) (e : String) (h1 : ¬hist.length < cfg.min_samples)
    (h2 : ¬(hist ≠ [] ∧ timeSpanHours hist < cfg.min_history_hours)) :
    calculate_statistics cfg hist cur c25 p25 e =
      some
        { expiry_date := e
          current_iv := cur * 100
          mean_iv := npMean (hist.map (fun r => r.synthetic_atm_iv)) * 100
          std_dev := npStdDdof1 (hist.map (fun r => r.synthetic_atm_iv)) * 100
          z_score :=
            if 1e-6 < npStdDdof1 (hist.map (fun r => r.synthetic_atm_iv)) then
              (cur - npMean (hist.map (fun r => r.synthetic_atm_iv))) /
                npStdDdof1 (hist.map (fun r => r.synthetic_atm_iv))
            else 0
          iv_percentile :=
            if 1e-6 < pyMaxD (hist.map (fun r => r.synthetic_atm_iv)) 0 -
                pyMinD (hist.map (fun r => r.synthetic_atm_iv)) 0 then
              max 0 (min 100 ((cur - pyMinD (hist.map (fun r => r.synthetic_atm_iv)) 0) /
                (pyMaxD (hist.map (fun r => r.synthetic_atm_iv)) 0 -
                  pyMinD (hist.map (fun r => r.synthetic_atm_iv)) 0) * 100))
            else 50
          daily_low_iv := pyMinD (hist.map (fun r => r.synthetic_atm_iv)) 0 * 100
          daily_high_iv := pyMaxD (hist.map (fun r => r.synthetic_atm_iv)) 0 * 100
          call_25d_iv := c25 * 100
          put_25d_iv := p25 * 100
          skew_direction :=
            if p25 * 1.05 < c25 then "Calls > Puts (Bullish Vol)"
            else if c25 * 1.05 < p25 then "Puts > Calls (Bearish Vol)"
            else "Balanced"
          sample_count := (hist.map (fun r => r.synthetic_atm_iv)).length
          is_abnormal :=
            decide (cfg.z_score_threshold <
              if 1e-6 < npStdDdof1 (hist.map (fun r => r.synthetic_atm_iv)) then
                (cur - npMean (hist.map (fun r => r.synthetic_atm_iv))) /
                  npStdDdof1 (hist.map (fun r => r.synthetic_atm_iv))
              else 0) } := by
  unfold calculate_statistics
  rw [if_neg h1, if_neg h2]

theorem foldl_max_replicate {α : Type} [LinearOrder α] (n : ℕ) (a b : α) :
    (List.replicate n b).foldl max a = if n = 0 then a else max a b := by
  induction n generalizing a with
  | zero => simp
  | succ n ih =>
      rw [List.replicate_succ, List.foldl_cons, ih]
      rcases Nat.eq_zero_or_pos n with rfl | hn
      · simp
      · rw [if_neg (Nat.pos_iff_ne_zero.1 hn), if_neg (Nat.succ_ne_zero n),
          max_eq_left (le_max_right a b)]

theorem foldl_min_replicate {α : Type} [LinearOrder α] (n : ℕ) (a b : α) :
    (List.replicate n b).foldl min a = if n = 0 then a else min a b := by
  induction n generalizing a with
  | zero => simp
  | succ n ih =>
      rw [List.replicate_succ, List.foldl_cons, ih]
      rcases Nat.eq_zero_or_pos n with rfl | hn
      · simp
      · rw [if_neg (Nat.pos_iff_ne_zero.1 hn), if_neg (Nat.succ_ne_zero n),
          min_eq_left (min_le_right a b)]

/-- A ten-row history: one row at second 0, nine rows five hours later, all
with synthetic IV 0.5 (passes both sufficiency guards, zero variance). -/
noncomputable def hist10 : List HistRow :=
  ⟨1/2, 0⟩ :: List.replicate 9 ⟨1/2, 18000⟩

theorem hist10_vals : hist10.map (fun r => r.synthetic_atm_iv) = List.replicate 10 (1/2) := by
  simp [hist10, List.map_replicate, List.replicate_succ]

theorem hist10_span : timeSpanHours hist10 = 5 := by
  unfold timeSpanHours
  simp only [hist10, List.map_cons, List.map_replicate, pyMaxD, pyMinD,
    foldl_max_replicate, foldl_min_replicate]
  norm_num

theorem hist10_guards (cfg : AnalyzerCfg) (hs : cfg.min_samples ≤ 10)
    (hh : cfg.min_history_hours ≤ 5) :
    ¬hist10.length < cfg.min_samples ∧
      ¬(hist10 ≠ [] ∧ timeSpanHours hist10 < cfg.min_history_hours) := by
  constructor
  · simp only [hist10, List.length_cons, List.length_replicate]
    omega
  · rintro ⟨-, hlt⟩
    rw [hist10_span] at hlt
    exact absurd hh (not_le.2 hlt)

/-- C3: Z-score engine sufficiency guards.  Either failing guard — too few
rows, or, for a nonempty history, a time span below the configured minimum
hours — yields `none` (the "insufficient data" outcome) rather than an
error or a numeric result; in particular any 12-row history whose
timestamps all lie within 90 minutes of each other yields `none` under the
default configuration. -/
theorem claim_C3 :
    (∀ (cfg : AnalyzerCfg) (hist : List HistRow) (cur c25 p25 : ℝ) (e : String),
        hist.length < cfg.min_samples ∨
          (hist ≠ [] ∧ timeSpanHours hist < cfg.min_history_hours) →
        calculate_statistics cfg hist cur c25 p25 e = none) ∧
    (∀ (hist : List HistRow) (cur c25 p25 : ℝ) (e : String),
        hist.length = 12 →
        (∀ r ∈ hist, ∀ r' ∈ hist, |r.timestamp - r'.timestamp| ≤ 5400) →
        calculate_statistics {} hist cur c25 p25 e = none) := by
  have hguard : ∀ (cfg : AnalyzerCfg) (hist : List HistRow) (cur c25 p25 : ℝ) (e : String),
      hist.length < cfg.min_samples ∨
        (hist ≠ [] ∧ timeSpanHours hist < cfg.min_history_hours) →
      calculate_statistics cfg hist cur c25 p25 e = none := by
    intro cfg hist cur c25 p25 e h
    unfold calculate_statistics
    by_cases h1 : hist.length < cfg.min_samples
    · rw [if_pos h1]
    · rcases h with h | h2
      · exact absurd h h1
      · rw [if_neg h1, if_pos h2]
  refine ⟨hguard, fun hist cur c25 p25 e hlen hclose => ?_⟩
  have hne : hist ≠ [] := by
    intro h
    rw [h] at hlen
    exact absurd hlen (by simp)
  have hspan : timeSpanHours hist < 4 := by
    have hmax := pyMaxD_mem (l := hist.map (fun r => r.timestamp)) (by simp [hne]) 0
    have hmin := pyMinD_mem (l := hist.map (fun r => r.timestamp)) (by simp [hne]) 0
    rcases List.mem_map.1 hmax with ⟨r, hr, hrts⟩
    rcases List.mem_map.1 hmin with ⟨r', hr', hrts'⟩
    have hdiff : pyMaxD (hist.map (fun r => r.timestamp)) 0 -
        pyMinD (hist.map (fun r => r.timestamp)) 0 ≤ 5400 := by
      rw [← hrts, ← hrts']
      exact le_trans (le_abs_self _) (hclose r hr r' hr')
    unfold timeSpanHours
    calc (pyMaxD (hist.map (fun r => r.timestamp)) 0 -
          pyMinD (hist.map (fun r => r.timestamp)) 0) / 3600 ≤ 5400 / 3600 := by
          exact div_le_div_of_nonneg_right hdiff (by norm_num) |>.trans_eq rfl
      _ < 4 := by norm_num
  exact hguard {} hist cur c25 p25 e (Or.inr ⟨hne, hspan⟩)

/-- Witness for C3 at a concrete input: 12 rows sharing one timestamp
(span 0 hours, below the 4-hour minimum) despite exceeding the 10-sample
minimum. -/
theorem claim_C3_witness :
    calculate_statistics {} (List.replicate 12 (⟨1/2, 0⟩ : HistRow)) (1/2) 0 0 "260130" =
      none := by
  refine claim_C3.2 _ _ _ _ _ (by simp) ?_
  intro r hr r' hr'
  rw [List.eq_of_mem_replicate hr, List.eq_of_mem_replicate hr']
  norm_num

/-- C2: Z-score engine core formula.  Once both guards pass, the mean is
the arithmetic mean and the standard deviation the Bessel-corrected
(divisor `n - 1`) sample standard deviation of the historical synthetic
IVs; `z = (current - mean)/std` when `std > 1e-6` and `z = 0` otherwise;
the abnormal flag holds exactly when `z` strictly exceeds the threshold;
and every IV-like output is the corresponding fraction times 100. -/
theorem claim_C2 (cfg : AnalyzerCfg) (hist : List HistRow) (cur c25 p25 : ℝ) (e : String)
    (h1 : cfg.min_samples ≤ hist.length) (h2 : hist ≠ [])
    (h3 : cfg.min_history_hours ≤ timeSpanHours hist) :
    npMean (hist.map fun r => r.synthetic_atm_iv) =
      (hist.map fun r => r.synthetic_atm_iv).sum /
        (hist.map fun r => r.synthetic_atm_iv).length ∧
    npStdDdof1 (hist.map fun r => r.synthetic_atm_iv) =
      Real.sqrt (((hist.map fun r => r.synthetic_atm_iv).map
          (fun x => (x - npMean (hist.map fun r => r.synthetic_atm_iv)) ^ 2)).sum /
        ((hist.map fun r => r.synthetic_atm_iv).length - 1)) ∧
    ∃ s, calculate_statistics cfg hist cur c25 p25 e = some s ∧
      s.mean_iv = npMean (hist.map fun r => r.synthetic_atm_iv) * 100 ∧
      s.std_dev = npStdDdof1 (hist.map fun r => r.synthetic_atm_iv) * 100 ∧
      s.z_score =
        (if 1e-6 < npStdDdof1 (hist.map fun r => r.synthetic_atm_iv) then
          (cur - npMean (hist.map fun r => r.synthetic_atm_iv)) /
            npStdDdof1 (hist.map fun r => r.synthetic_atm_iv)
        else 0) ∧
      (s.is_abnormal = true ↔ cfg.z_score_threshold < s.z_score) ∧
      s.current_iv = cur * 100 ∧
      s.daily_low_iv = pyMinD (hist.map fun r => r.synthetic_atm_iv) 0 * 100 ∧
      s.daily_high_iv = pyMaxD (hist.map fun r => r.synthetic_atm_iv) 0 * 100 ∧
      s.call_25d_iv = c25 * 100 ∧ s.put_25d_iv = p25 * 100 := by
  refine ⟨rfl, rfl, _,
    calculate_statistics_eq cfg hist cur c25 p25 e (not_lt.2 h1)
      (fun h => absurd h3 (not_le.2 h.2)), rfl, rfl, rfl, ?_, rfl, rfl, rfl, rfl, rfl⟩
  exact decide_eq_true_iff

/-- Witness for C2 at a concrete input: the ten-row five-hour history under
the default configuration. -/
theorem claim_C2_witness :
    ∃ s, calculate_statistics {} hist10 (3/5) 0 0 "260130" = some s ∧
      s.mean_iv = npMean (hist10.map fun r => r.synthetic_atm_iv) * 100 ∧
      s.std_dev = npStdDdof1 (hist10.map fun r => r.synthetic_atm_iv) * 100 ∧
      s.z_score =
        (if 1e-6 < npStdDdof1 (hist10.map fun r => r.synthetic_atm_iv) then
          ((3/5 : ℝ) - npMean (hist10.map fun r => r.synthetic_atm_iv)) /
            npStdDdof1 (hist10.map fun r => r.synthetic_atm_iv)
        else 0) ∧
      (s.is_abnormal = true ↔ ({} : AnalyzerCfg).z_score_threshold < s.z_score) ∧
      s.current_iv = (3/5 : ℝ) * 100 ∧
      s.daily_low_iv = pyMinD (hist10.map fun r => r.synthetic_atm_iv) 0 * 100 ∧
      s.daily_high_iv = pyMaxD (hist10.map fun r => r.synthetic_atm_iv) 0 * 100 ∧
      s.call_25d_iv = (0 : ℝ) * 100 ∧ s.put_25d_iv = (0 : ℝ) * 100 :=
  (claim_C2 {} hist10 (3/5) 0 0 "260130" (by simp [hist10]) (by simp [hist10])
    (by rw [hist10_span]; norm_num)).2.2

/-- C9: a flat history can never trigger the abnormal flag.  Whenever the
sample standard deviation is at most `1e-6` (and the threshold is
nonnegative, as in every real configuration), the Z-score is forced to 0
and the abnormal flag is false for every current IV. -/
theorem claim_C9 (cfg : AnalyzerCfg) (hist : List HistRow) (cur c25 p25 : ℝ) (e : String)
    (h1 : cfg.min_samples ≤ hist.length) (h2 : hist ≠ [])
    (h3 : cfg.min_history_hours ≤ timeSpanHours hist)
    (hstd : npStdDdof1 (hist.map fun r => r.synthetic_atm_iv) ≤ 1e-6)
    (hthr : 0 ≤ cfg.z_score_threshold) :
    ∃ s, calculate_statistics cfg hist cur c25 p25 e = some s ∧
      s.z_score = 0 ∧ s.is_abnormal = false := by
  refine ⟨_,
    calculate_statistics_eq cfg hist cur c25 p25 e (not_lt.2 h1)
      (fun h => absurd h3 (not_le.2 h.2)), ?_, ?_⟩
  · exact if_neg (not_lt.2 hstd)
  · rw [if_neg (not_lt.2 hstd)]
    exact decide_eq_false (not_lt.2 hthr)

/-- Witness for C9 at a concrete input: the zero-variance ten-row history
and an arbitrarily large current IV. -/
theorem claim_C9_witness :
    ∃ s, calculate_statistics {} hist10 1000000 0 0 "260130" = some s ∧
      s.z_score = 0 ∧ s.is_abnormal = false := by
  refine claim_C9 {} hist10 1000000 0 0 "260130" (by simp [hist10]) (by simp [hist10])
    (by rw [hist10_span]; norm_num) ?_ (by norm_num)
  rw [hist10_vals]
  unfold npStdDdof1 npMean
  simp only [List.sum_replicate, List.length_replicate, List.map_replicate, nsmul_eq_mul]
  norm_num [Real.sqrt_zero]

/-- A ten-row history whose synthetic-IV range is exactly `1e-6`: nine rows
at 0.5 and one at `0.5 + 1e-6`, spanning five hours. -/
noncomputable def c7Hist : List HistRow :=
  ⟨1/2, 0⟩ :: (List.replicate 8 ⟨1/2, 18000⟩ ++ [⟨1/2 + 1e-6, 18000⟩])

theorem c7Hist_vals :
    c7Hist.map (fun r => r.synthetic_atm_iv) =
      1/2 :: (List.replicate 8 (1/2) ++ [1/2 + 1e-6]) := by
  simp [c7Hist, List.map_replicate]

theorem c7Hist_max : pyMaxD (c7Hist.map fun r => r.synthetic_atm_iv) 0 = 1/2 + 1e-6 := by
  rw [c7Hist_vals]
  simp only [pyMaxD, List.foldl_append, foldl_max_replicate, List.foldl_cons, List.foldl_nil]
  norm_num [max_eq_right]

theorem c7Hist_min : pyMinD (c7Hist.map fun r => r.synthetic_atm_iv) 0 = 1/2 := by
  rw [c7Hist_vals]
  simp only [pyMinD, List.foldl_append, foldl_min_replicate, List.foldl_cons, List.foldl_nil]
  norm_num [min_eq_left]

theorem c7Hist_span : timeSpanHours c7Hist = 5 := by
  unfold timeSpanHours
  simp only [c7Hist, List.map_cons, List.map_append, List.map_replicate, List.map_cons,
    List.map_nil, pyMaxD, pyMinD, List.foldl_append, foldl_max_replicate,
    foldl_min_replicate, List.foldl_cons, List.foldl_nil]
  norm_num

theorem c7Hist_guards :
    ¬c7Hist.length < ({} : AnalyzerCfg).min_samples ∧
      ¬(c7Hist ≠ [] ∧ timeSpanHours c7Hist < ({} : AnalyzerCfg).min_history_hours) := by
  constructor
  · simp [c7Hist]
  · rintro ⟨-, hlt⟩
    rw [c7Hist_span] at hlt
    norm_num at hlt

/-- C7 counterexample: a history whose IV range is exactly `1e-6`.  The
claim (formula applies whenever `max - min ≥ 1e-6`) demands the clamped
formula value 0 here, but the code returns the degenerate percentile 50
because its formula branch requires a strictly larger range. -/
theorem claim_C7_counterexample :
    pyMaxD (c7Hist.map fun r => r.synthetic_atm_iv) 0 -
        pyMinD (c7Hist.map fun r => r.synthetic_atm_iv) 0 = 1e-6 ∧
    (calculate_statistics {} c7Hist (1/2) 0 0 "260130").map (fun s => s.iv_percentile) =
      some 50 ∧
    max 0 (min 100 (((1/2 : ℝ) - pyMinD (c7Hist.map fun r => r.synthetic_atm_iv) 0) /
      (pyMaxD (c7Hist.map fun r => r.synthetic_atm_iv) 0 -
        pyMinD (c7Hist.map fun r => r.synthetic_atm_iv) 0) * 100)) = 0 ∧
    (50 : ℝ) ≠ 0 := by
  have hrange : pyMaxD (c7Hist.map fun r => r.synthetic_atm_iv) 0 -
      pyMinD (c7Hist.map fun r => r.synthetic_atm_iv) 0 = 1e-6 := by
    rw [c7Hist_max, c7Hist_min]
    norm_num
  refine ⟨hrange, ?_, ?_, by norm_num⟩
  · have hnot : ¬(1e-6 : ℝ) < pyMaxD (c7Hist.map fun r => r.synthetic_atm_iv) 0 -
        pyMinD (c7Hist.map fun r => r.synthetic_atm_iv) 0 := by
      rw [hrange]
      exact lt_irrefl _
    rw [calculate_statistics_eq {} c7Hist (1/2) 0 0 "260130" c7Hist_guards.1 c7Hist_guards.2]
    rw [if_neg hnot]
    rfl
  · rw [hrange, c7Hist_min]
    norm_num

/-- C7 (amended): once both guards pass, the percentile equals the clamped
formula `clamp(((current - min)/(max - min))*100, 0, 100)` whenever
`max - min` is strictly greater than `1e-6`, and is exactly 50 whenever
`max - min ≤ 1e-6` (including a range of exactly `1e-6`). -/
theorem claim_C7 (cfg : AnalyzerCfg) (hist : List HistRow) (cur c25 p25 : ℝ) (e : String)
    (h1 : cfg.min_samples ≤ hist.length) (h2 : hist ≠ [])
    (h3 : cfg.min_history_hours ≤ timeSpanHours hist) :
    ∃ s, calculate_statistics cfg hist cur c25 p25 e = some s ∧
      (1e-6 < pyMaxD (hist.map fun r => r.synthetic_atm_iv) 0 -
          pyMinD (hist.map fun r => r.synthetic_atm_iv) 0 →
        s.iv_percentile =
          max 0 (min 100 ((cur - pyMinD (hist.map fun r => r.synthetic_atm_iv) 0) /
            (pyMaxD (hist.map fun r => r.synthetic_atm_iv) 0 -
              pyMinD (hist.map fun r => r.synthetic_atm_iv) 0) * 100))) ∧
      (pyMaxD (hist.map fun r => r.synthetic_atm_iv) 0 -
          pyMinD (hist.map fun r => r.synthetic_atm_iv) 0 ≤ 1e-6 →
        s.iv_percentile = 50) := by
  refine ⟨_,
    calculate_statistics_eq cfg hist cur c25 p25 e (not_lt.2 h1)
      (fun h => absurd h3 (not_le.2 h.2)), fun h => if_pos h, fun h => if_neg (not_lt.2 h)⟩

/-- Witness for C7 (amended) at a concrete input: the exact-boundary
history, landing in the degenerate (percentile 50) branch. -/
theorem claim_C7_witness :
    ∃ s, calculate_statistics {} c7Hist (1/2) 0 0 "260130" = some s ∧
      (1e-6 < pyMaxD (c7Hist.map fun r => r.synthetic_atm_iv) 0 -
          pyMinD (c7Hist.map fun r => r.synthetic_atm_iv) 0 →
        s.iv_percentile =
          max 0 (min 100 (((1/2 : ℝ) - pyMinD (c7Hist.map fun r => r.synthetic_atm_iv) 0) /
            (pyMaxD (c7Hist.map fun r => r.synthetic_atm_iv) 0 -
              pyMinD (c7Hist.map fun r => r.synthetic_atm_iv) 0) * 100))) ∧
      (pyMaxD (c7Hist.map fun r => r.synthetic_atm_iv) 0 -
          pyMinD (c7Hist.map fun r => r.synthetic_atm_iv) 0 ≤ 1e-6 →
        s.iv_percentile = 50) :=
  claim_C7 {} c7Hist (1/2) 0 0 "260130" (by simp [c7Hist]) (by simp [c7Hist])
    (by rw [c7Hist_span]; norm_num)

/-! ### Lemmas about the interpolation bracket scan -/

/-- The lower-bracket accumulator after consuming a block of pairs: the
block's last element, or the previous accumulator when the block is
empty. -/
def lastD (A : List (ℚ × ℚ)) (acc : Option (ℚ × ℚ)) : Option (ℚ × ℚ) :=
  match A.getLast? with
  | some x => some x
  | none => acc

theorem lastD_nil (acc : Option (ℚ × ℚ)) : lastD [] acc = acc := rfl

theorem lastD_cons (p : ℚ × ℚ) (A : List (ℚ × ℚ)) (acc : Option (ℚ × ℚ)) :
    lastD (p :: A) acc = lastD A (some p) := by
  cases A with
  | nil => rfl
  | cons q A' =>
      unfold lastD
      rw [List.getLast?_cons_cons,
        List.getLast?_eq_getLast_of_ne_nil (List.cons_ne_nil q A')]

theorem findBracket_append {spot : ℚ} :
    ∀ (A : List (ℚ × ℚ)), (∀ p ∈ A, p.1 ≤ spot) → ∀ (B : List (ℚ × ℚ)) acc,
      findBracket spot (A ++ B) acc = findBracket spot B (lastD A acc) := by
  intro A
  induction A with
  | nil => intro _ B acc; rw [List.nil_append, lastD_nil]
  | cons p A ih =>
      intro hA B acc
      rw [List.cons_append, findBracket, if_pos (hA p (List.mem_cons_self _ _)),
        ih (fun q hq => hA q (List.mem_cons_of_mem _ hq)) B (some p), lastD_cons]

theorem findBracket_stop {spot : ℚ} {b : ℚ × ℚ} (hb : spot < b.1) (B : List (ℚ × ℚ))
    (acc : Option (ℚ × ℚ)) : findBracket spot (b :: B) acc = (acc, some b) := by
  rw [findBracket, if_neg (not_le.2 hb)]

/-- In a list sorted by ascending strike, every element's strike is at most
the last element's strike. -/
theorem sorted_le_getLast :
    ∀ {A : List (ℚ × ℚ)} (h : A ≠ []), A.Sorted strikeLE →
      ∀ p ∈ A, p.1 ≤ (A.getLast h).1 := by
  intro A
  induction A with
  | nil => intro h; exact absurd rfl h
  | cons a A ih =>
      intro _ hs p hp
      cases A with
      | nil =>
          simp only [List.getLast_singleton]
          rw [List.mem_singleton.1 hp]
      | cons b A' =>
          rw [List.getLast_cons (List.cons_ne_nil b A')]
          rcases List.mem_cons.1 hp with rfl | hp'
          · exact le_trans
              (List.rel_of_sorted_cons hs _ (List.getLast_mem (List.cons_ne_nil b A')))
              le_rfl
          · exact ih (List.cons_ne_nil b A') hs.of_cons p hp'

/-- The head of a sorted list is a lower bound for its members. -/
theorem sorted_head_le {b : ℚ × ℚ} {B : List (ℚ × ℚ)} (hs : (b :: B).Sorted strikeLE)
    {p : ℚ × ℚ} (hp : p ∈ b :: B) : b.1 ≤ p.1 := by
  rcases List.mem_cons.1 hp with rfl | hp'
  · exact le_rfl
  · exact List.rel_of_sorted_cons hs p hp'

/-- The head of a `dropWhile` result fails the predicate. -/
theorem dropWhile_head_not {α : Type} (p : α → Bool) :
    ∀ (l : List α) {x : α} {xs : List α}, l.dropWhile p = x :: xs → p x = false := by
  intro l
  induction l with
  | nil => intro x xs h; cases h
  | cons a l ih =>
      intro x xs h
      by_cases hp : p a = true
      · rw [List.dropWhile_cons_of_pos hp] at h
        exact ih h
      · rw [List.dropWhile_cons_of_neg (by simpa using hp)] at h
        cases h
        simpa using hp

/-- Bracket scan on a sorted list with both sides present: the scan returns
the largest strike `≤ spot` and the smallest strike `> spot`. -/
theorem findBracket_sorted {spot : ℚ} {S : List (ℚ × ℚ)} (hs : S.Sorted strikeLE)
    (hlo : ∃ a ∈ S, a.1 ≤ spot) (hup : ∃ b ∈ S, spot < b.1) :
    ∃ lo up, findBracket spot S none = (some lo, some up) ∧ lo ∈ S ∧ up ∈ S ∧
      lo.1 ≤ spot ∧ spot < up.1 ∧
      (∀ p ∈ S, p.1 ≤ spot → p.1 ≤ lo.1) ∧ (∀ p ∈ S, spot < p.1 → up.1 ≤ p.1) := by
  classical
  set A := S.takeWhile (fun p => decide (p.1 ≤ spot)) with hA_def
  set B := S.dropWhile (fun p => decide (p.1 ≤ spot)) with hB_def
  have hS : A ++ B = S := by rw [hA_def, hB_def, List.takeWhile_append_dropWhile]
  have hAle : ∀ p ∈ A, p.1 ≤ spot := by
    intro p hp
    rw [hA_def] at hp
    have h1 := List.mem_takeWhile_imp hp
    simp only [decide_eq_true_eq] at h1
    exact h1
  have hAsub : A.Sublist S := by rw [hA_def]; exact List.takeWhile_sublist _
  have hBsub : B.Sublist S := by rw [hB_def]; exact List.dropWhile_sublist _
  have hAsorted : A.Sorted strikeLE := hs.sublist hAsub
  have hBsorted : B.Sorted strikeLE := hs.sublist hBsub
  clear_value A B
  -- the suffix is nonempty and starts above the spot
  obtain ⟨b0, hb0S, hb0⟩ := hup
  have hb0B : b0 ∈ B := by
    rcases (List.mem_append.1 (hS ▸ hb0S : b0 ∈ A ++ B)) with h | h
    · exact absurd (hAle b0 h) (not_le.2 hb0)
    · exact h
  obtain ⟨u, B', rfl⟩ : ∃ u B', B = u :: B' := by
    cases B with
    | nil => cases hb0B
    | cons u B' => exact ⟨u, B', rfl⟩
  have hu : spot < u.1 := by
    have hfalse := dropWhile_head_not (fun p => decide (p.1 ≤ spot)) S hB_def.symm
    simp only [decide_eq_false_iff_not] at hfalse
    exact lt_of_not_le hfalse
  -- the prefix is nonempty and ends with the lower bracket
  obtain ⟨a0, ha0S, ha0⟩ := hlo
  have ha0A : a0 ∈ A := by
    rcases (List.mem_append.1 (hS ▸ ha0S : a0 ∈ A ++ u :: B')) with h | h
    · exact h
    · exact absurd (lt_of_lt_of_le hu (sorted_head_le hBsorted h)) (not_lt.2 ha0)
  have hAne : A ≠ [] := List.ne_nil_of_mem ha0A
  refine ⟨A.getLast hAne, u, ?_, ?_, ?_, hAle _ (List.getLast_mem hAne), hu, ?_, ?_⟩
  · rw [← hS, findBracket_append A hAle _ none, findBracket_stop hu,
      lastD, List.getLast?_eq_getLast_of_ne_nil hAne]
  · exact hAsub.mem (List.getLast_mem hAne)
  · exact hBsub.mem (List.mem_cons_self _ _)
  · intro p hpS hple
    have hpA : p ∈ A := by
      rcases (List.mem_append.1 (hS ▸ hpS : p ∈ A ++ u :: B')) with h | h
      · exact h
      · exact absurd (lt_of_lt_of_le hu (sorted_head_le hBsorted h)) (not_lt.2 hple)
    exact sorted_le_getLast hAne hAsorted p hpA
  · intro p hpS hpgt
    have hpB : p ∈ u :: B' := by
      rcases (List.mem_append.1 (hS ▸ hpS : p ∈ A ++ u :: B')) with h | h
      · exact absurd (hAle p h) (not_le.2 hpgt)
      · exact h
    exact sorted_head_le hBsorted hpB

/-- The two quotes of the concrete interpolation scenario: strikes 95000
(IV 0.50) and 100000 (IV 0.54). -/
def cexMarks : List Quote :=
  [{ symbol := ['B', 'T', 'C', '-', '2', '5', '1', '2', '2', '6', '-', '9', '5', '0', '0', '0', '-', 'C']
     markIV := 1/2 },
   { symbol := ['B', 'T', 'C', '-', '2', '5', '1', '2', '2', '6', '-', '1', '0', '0', '0', '0', '0', '-', 'C']
     markIV := 27/50 }]

theorem cexMarks_validPairs : validPairs cexMarks = [(95000, 1/2), (100000, 27/50)] := by
  have hs1 : strikeParts
      ['B', 'T', 'C', '-', '2', '5', '1', '2', '2', '6', '-', '9', '5', '0', '0', '0', '-', 'C'] =
      some (false, 95000, 0, 0) := by decide
  have hs2 : strikeParts
      ['B', 'T', 'C', '-', '2', '5', '1', '2', '2', '6', '-', '1', '0', '0', '0', '0', '0', '-', 'C'] =
      some (false, 100000, 0, 0) := by decide
  simp only [validPairs, cexMarks, List.filterMap_cons, List.filterMap_nil,
    get_strike_from_symbol, hs1, hs2, Option.map_some']
  norm_num [floatVal]

/-- C4: synthetic ATM interpolation, bracketed case.  With at least two
valid `(strike, IV)` pairs, some valid strike `≤ spot` and some `> spot`,
the function returns `w_lower*iv_lower + w_upper*iv_upper` with
`w_lower = (upper - spot)/(upper - lower)`, `w_upper = 1 - w_lower`,
`lower` the largest valid strike `≤ spot` and `upper` the smallest valid
strike `> spot`, and the reference strike is the spot price itself;
concretely, strikes `[(95000, 0.50), (100000, 0.54)]` at spot 97400 give
`(0.5192, 97400)`. -/
theorem claim_C4 :
    (∀ (marks : List Quote) (spot : ℚ),
      2 ≤ (validPairs marks).length →
      (∃ a ∈ validPairs marks, a.1 ≤ spot) →
      (∃ b ∈ validPairs marks, spot < b.1) →
      ∃ lo up, lo ∈ validPairs marks ∧ up ∈ validPairs marks ∧
        lo.1 ≤ spot ∧ spot < up.1 ∧
        (∀ p ∈ validPairs marks, p.1 ≤ spot → p.1 ≤ lo.1) ∧
        (∀ p ∈ validPairs marks, spot < p.1 → up.1 ≤ p.1) ∧
        find_synthetic_atm_iv marks spot =
          Except.ok ((up.1 - spot) / (up.1 - lo.1) * lo.2 +
            (1 - (up.1 - spot) / (up.1 - lo.1)) * up.2, spot)) ∧
    find_synthetic_atm_iv cexMarks 97400 = Except.ok (649/1250, 97400) := by
  constructor
  · intro marks spot h2 hlo hup
    have hperm := List.perm_insertionSort strikeLE (validPairs marks)
    have hsorted := List.sorted_insertionSort strikeLE (validPairs marks)
    obtain ⟨lo, up, heq, hloS, hupS, hlole, hupgt, hmax, hmin⟩ :=
      findBracket_sorted hsorted
        (by obtain ⟨a, ha, hale⟩ := hlo; exact ⟨a, hperm.mem_iff.2 ha, hale⟩)
        (by obtain ⟨b, hb, hbgt⟩ := hup; exact ⟨b, hperm.mem_iff.2 hb, hbgt⟩)
    refine ⟨lo, up, hperm.mem_iff.1 hloS, hperm.mem_iff.1 hupS, hlole, hupgt,
      fun p hp hple => hmax p (hperm.mem_iff.2 hp) hple,
      fun p hp hpgt => hmin p (hperm.mem_iff.2 hp) hpgt, ?_⟩
    have hne : up.1 - lo.1 ≠ 0 := sub_ne_zero.2 (ne_of_gt (lt_of_le_of_lt hlole hupgt))
    have harith : (spot - lo.1) / (up.1 - lo.1) = 1 - (up.1 - spot) / (up.1 - lo.1) := by
      field_simp
    unfold find_synthetic_atm_iv
    rw [if_neg (not_lt.2 h2)]
    dsimp only
    rw [heq]
    dsimp only
    rw [harith]
  · have hvp := cexMarks_validPairs
    unfold find_synthetic_atm_iv
    rw [hvp]
    norm_num [List.insertionSort, List.orderedInsert, strikeLE, findBracket]

/-- Witness for C4 at a concrete input: the scenario quotes bracket the
spot 97400, through the general bracketed-case description. -/
theorem claim_C4_witness :
    ∃ lo up, lo ∈ validPairs cexMarks ∧ up ∈ validPairs cexMarks ∧
      lo.1 ≤ 97400 ∧ (97400 : ℚ) < up.1 ∧
      (∀ p ∈ validPairs cexMarks, p.1 ≤ 97400 → p.1 ≤ lo.1) ∧
      (∀ p ∈ validPairs cexMarks, (97400 : ℚ) < p.1 → up.1 ≤ p.1) ∧
      find_synthetic_atm_iv cexMarks 97400 =
        Except.ok ((up.1 - 97400) / (up.1 - lo.1) * lo.2 +
          (1 - (up.1 - 97400) / (up.1 - lo.1)) * up.2, 97400) :=
  claim_C4.1 cexMarks 97400 (by rw [cexMarks_validPairs]; norm_num)
    ⟨(95000, 1/2), by rw [cexMarks_validPairs]; norm_num, by norm_num⟩
    ⟨(100000, 27/50), by rw [cexMarks_validPairs]; norm_num, by norm_num⟩

/-- C5: at a non-empty quote list with zero valid `(strike, IV)` pairs and
an unresolvable strike, the fallback `min(..., key=...)` evaluates
`abs(None - spot)` and raises a `TypeError` instead of returning the
sentinel `(0, spot)` the claim (and the spec's error-handling design)
requires; the sentinel return is unreachable for non-empty input with an
unresolvable symbol. -/
theorem claim_C5 :
    find_synthetic_atm_iv [{ symbol := ['I', 'N', 'V', 'A', 'L', 'I', 'D'] }] 97400 =
      Except.error "TypeError" := by
  have h : strikeParts ['I', 'N', 'V', 'A', 'L', 'I', 'D'] = none := by decide
  simp [find_synthetic_atm_iv, validPairs, get_strike_from_symbol, h,
    pyMinByKeyEx, fallbackKey]

/-! ### Lemmas about the dual-system skew calculator -/

theorem pyMinByKeyRAux_map {α β : Type} (key : β → ℝ) (f : α → β) (l : List α) :
    ∀ b : α, pyMinByKeyRAux key (f b) (l.map f) = f (pyMinByKeyRAux (fun a => key (f a)) b l) := by
  induction l with
  | nil => intro b; rfl
  | cons x xs ih =>
      intro b
      simp only [List.map_cons, pyMinByKeyRAux]
      by_cases h : key (f x) < key (f b)
      · rw [if_pos h, if_pos h, ih]
      · rw [if_neg h, if_neg h, ih]

theorem pyMinByKeyR_map {α β : Type} (key : β → ℝ) (f : α → β) (l : List α) :
    pyMinByKeyR key (l.map f) = (pyMinByKeyR (fun a => key (f a)) l).map f := by
  cases l with
  | nil => rfl
  | cons x xs => simp only [List.map_cons, pyMinByKeyR, pyMinByKeyRAux_map, Option.map_some']

theorem pyMinByKeyR_congr {α : Type} {k1 k2 : α → ℝ} (h : ∀ a, k1 a = k2 a) (l : List α) :
    pyMinByKeyR k1 l = pyMinByKeyR k2 l := by
  rw [funext h]

/-- With a zero basis adjustment (`F = S ≠ 0`), the forward-delta 25-delta
selection coincides with the spot-delta selection. -/
theorem fwdSel_eq_spotSel {S : ℝ} (hS : S ≠ 0) (ms : List Quote) :
    fwdSel S S ms = spotSel ms := by
  unfold fwdSel spotSel
  rw [pyMinByKeyR_map]
  simp only [calculate_forward_delta, div_self hS, mul_one]
  cases pyMinByKeyR (fun m => |(|((m.delta : ℚ) : ℝ)|) - 0.25|) ms with
  | none => rfl
  | some m => rfl

theorem calculate_forward_price_zero (S : ℝ) : calculate_forward_price S 0 0 = S := by
  unfold calculate_forward_price
  norm_num

/-- C6: ghost-skew identity.  For every quote list, when the funding rate
is 0 and the time to expiry is 0 (and the perpetual mark price is nonzero,
as the spec's MarketContext requires), the forward price equals the
perpetual mark price, every forward delta equals its spot delta, the
spot-system and forward-system 25-delta selections coincide on both sides,
and the returned ghost skew is exactly 0. -/
theorem claim_C6 (marks : List Quote) (S : ℝ) (hS : S ≠ 0) :
    calculate_forward_price S 0 0 = S ∧
    (∀ d : ℝ, calculate_forward_delta d S (calculate_forward_price S 0 0) = d) ∧
    fwdSel S (calculate_forward_price S 0 0)
        (marks.filter (fun m => endsWith2 '-' 'C' m.symbol)) =
      spotSel (marks.filter (fun m => endsWith2 '-' 'C' m.symbol)) ∧
    fwdSel S (calculate_forward_price S 0 0)
        (marks.filter (fun m => endsWith2 '-' 'P' m.symbol)) =
      spotSel (marks.filter (fun m => endsWith2 '-' 'P' m.symbol)) ∧
    (find_25delta_ivs_dual_system marks S 0 0).ghost_skew = 0 := by
  have hF := calculate_forward_price_zero S
  refine ⟨hF, ?_, ?_, ?_, ?_⟩
  · intro d
    rw [hF]
    unfold calculate_forward_delta
    rw [div_self hS, mul_one]
  · rw [hF]
    exact fwdSel_eq_spotSel hS _
  · rw [hF]
    exact fwdSel_eq_spotSel hS _
  · unfold find_25delta_ivs_dual_system
    dsimp only
    rw [hF, fwdSel_eq_spotSel hS, fwdSel_eq_spotSel hS]
    ring

/-- Witness for C6 at a concrete input: one call, one put, perpetual mark
price 100. -/
theorem claim_C6_witness :
    calculate_forward_price 100 0 0 = 100 ∧
    (∀ d : ℝ, calculate_forward_delta d 100 (calculate_forward_price 100 0 0) = d) ∧
    fwdSel 100 (calculate_forward_price 100 0 0)
        ([{ symbol := ['A', '-', 'C'], delta := 3/10 },
          { symbol := ['A', '-', 'P'], delta := -(1/4) }].filter
          (fun m => endsWith2 '-' 'C' m.symbol)) =
      spotSel ([{ symbol := ['A', '-', 'C'], delta := 3/10 },
          { symbol := ['A', '-', 'P'], delta := -(1/4) }].filter
          (fun m => endsWith2 '-' 'C' m.symbol)) ∧
    fwdSel 100 (calculate_forward_price 100 0 0)
        ([{ symbol := ['A', '-', 'C'], delta := 3/10 },
          { symbol := ['A', '-', 'P'], delta := -(1/4) }].filter
          (fun m => endsWith2 '-' 'P' m.symbol)) =
      spotSel ([{ symbol := ['A', '-', 'C'], delta := 3/10 },
          { symbol := ['A', '-', 'P'], delta := -(1/4) }].filter
          (fun m => endsWith2 '-' 'P' m.symbol)) ∧
    (find_25delta_ivs_dual_system
        [{ symbol := ['A', '-', 'C'], delta := 3/10 },
         { symbol := ['A', '-', 'P'], delta := -(1/4) }] 100 0 0).ghost_skew = 0 :=
  claim_C6 _ 100 (by norm_num)

/-! ### Lemmas about the opportunity ranker -/

theorem get_days_to_expiry_ge_one {now : ℚ} {sym : List Char} {d : ℤ}
    (h : get_days_to_expiry now sym = some d) : 1 ≤ d := by
  unfold get_days_to_expiry at h
  cases hp : parseExpiryDayNumber sym with
  | none => rw [hp] at h; cases h
  | some e =>
      rw [hp, Option.map_some'] at h
      cases h
      exact le_max_left _ _

/-- C8 (amended): Opportunity Ranker metrics.  For every quote whose
absolute delta lies in `[delta_min, delta_max]` and whose expiry parses,
the ranker emits an entry with
`daily_rent_pct = (mark_price/spot_price)/days_to_expiry*100` and
`opportunity_score = (|theta|/vega)*IV_percent` when `vega > 0` (else
`IV_percent`), where `days_to_expiry = max(1, ⌊(expiry_midnight -
utcnow)/1 day⌋)` — whole elapsed days to the expiry's midnight, not the
calendar-date difference from the current UTC date at midnight.  The
returned list is a permutation of the surviving entries sorted descending
by opportunity score, with no cap on its length. -/
theorem claim_C8 (now : ℚ) (all_marks : List Quote) (spot_price delta_min delta_max : ℚ)
    (hspot : 0 < spot_price) :
    (get_smart_sellable_strikes now all_marks spot_price delta_min delta_max).Sorted scoreGE ∧
    (get_smart_sellable_strikes now all_marks spot_price delta_min delta_max).Perm
      (all_marks.filterMap (entryOf now spot_price delta_min delta_max)) ∧
    (∀ (m : Quote) (days : ℤ), delta_min ≤ |m.delta| → |m.delta| ≤ delta_max →
      get_days_to_expiry now m.symbol = some days →
      entryOf now spot_price delta_min delta_max m = some
        { symbol := m.symbol
          iv := m.markIV * 100
          delta := |m.delta|
          theta := |m.theta|
          vega := m.vega
          mark_price := m.markPrice
          days_to_expiry := days
          daily_rent_pct := m.markPrice / spot_price / (days : ℚ) * 100
          opportunity_score :=
            if 0 < m.vega then |m.theta| / m.vega * (m.markIV * 100) else m.markIV * 100 }) ∧
    (∀ sym : List Char, get_days_to_expiry now sym =
      (parseExpiryDayNumber sym).map
        (fun (e : ℕ) => max 1 ⌊(((e : ℚ) * 86400) - now) / 86400⌋)) := by
  refine ⟨List.sorted_insertionSort scoreGE _, List.perm_insertionSort scoreGE _,
    ?_, fun _ => rfl⟩
  intro m days hmin hmax hdays
  have hpos : ¬days ≤ 0 := by
    have := get_days_to_expiry_ge_one hdays
    omega
  unfold entryOf
  rw [if_neg (by push_neg; exact ⟨hmin, hmax⟩)]
  dsimp only
  rw [hdays]
  dsimp only
  rw [if_neg hpos, if_pos hspot]

/-- The counterexample instrument (expiry 2026-01-01) for the ranker's
days-to-expiry semantics. -/
def c8Sym : List Char :=
  ['B', 'T', 'C', '-', '2', '6', '0', '1', '0', '1', '-', '9', '5', '0', '0', '0', '-', 'C']

/-- The counterexample "now": 2025-12-30 at 01:00:00 UTC, in seconds since
2000-01-01 (day number 9495). -/
def c8Now : ℚ := 9495 * 86400 + 3600

/-- The counterexample quote: delta 0.3, theta 1, vega 2, mark price
1000. -/
def c8Quote : Quote :=
  { symbol := c8Sym, markIV := 1/2, delta := 3/10, theta := 1, vega := 2, markPrice := 1000 }

theorem c8_parse : parseExpiryDayNumber c8Sym = some 9497 := by decide

/-- C8 counterexample: on 2025-12-30 at 01:00 UTC, an option expiring
2026-01-01 is 2 calendar days away (the claim's "expiry date minus current
UTC date at midnight", floored at 1, gives 2), but the code computes
`(expiry_midnight - utcnow()).days = 1`, so the daily rent for a
1000-per-100000 quote is 1.0 rather than the 0.5 the claim's formula
demands. -/
theorem claim_C8_counterexample :
    get_days_to_expiry c8Now c8Sym = some 1 ∧
    specDaysMidnight c8Now c8Sym = some 2 ∧
    (get_smart_sellable_strikes c8Now [c8Quote] 100000 (1/20) (13/20)).map
      (fun x => x.daily_rent_pct) = [1] ∧
    (1000 : ℚ) / 100000 / 2 * 100 = 1/2 ∧ (1 : ℚ) ≠ 1/2 := by
  have hdays : get_days_to_expiry c8Now c8Sym = some 1 := by
    unfold get_days_to_expiry
    rw [c8_parse, Option.map_some']
    norm_num [c8Now]
  refine ⟨hdays, ?_, ?_, by norm_num, by norm_num⟩
  · unfold specDaysMidnight
    rw [c8_parse, Option.map_some']
    norm_num [c8Now]
  · have hentry : entryOf c8Now 100000 (1/20) (13/20) c8Quote = some
        { symbol := c8Sym, iv := 50, delta := 3/10, theta := 1, vega := 2,
          mark_price := 1000, days_to_expiry := 1, daily_rent_pct := 1,
          opportunity_score := 25 } := by
      have habs : |(3/10 : ℚ)| = 3/10 := abs_of_pos (by norm_num)
      have h1 : |(1 : ℚ)| = 1 := abs_of_pos (by norm_num)
      unfold entryOf
      rw [if_neg (by rw [c8Quote]; dsimp only; rw [habs]; push_neg; constructor <;> norm_num)]
      dsimp only [c8Quote]
      rw [hdays]
      dsimp only
      rw [if_neg (by norm_num), if_pos (by norm_num)]
      simp only [habs, h1]
      norm_num
    unfold get_smart_sellable_strikes
    rw [List.filterMap_cons, hentry]
    simp [List.insertionSort]

/-- Witness for C8 (amended) at a concrete input: the counterexample quote
at spot 100000. -/
theorem claim_C8_witness :
    (get_smart_sellable_strikes c8Now [c8Quote] 100000 (1/20) (13/20)).Sorted scoreGE ∧
    (get_smart_sellable_strikes c8Now [c8Quote] 100000 (1/20) (13/20)).Perm
      ([c8Quote].filterMap (entryOf c8Now 100000 (1/20) (13/20))) ∧
    (∀ (m : Quote) (days : ℤ), (1/20 : ℚ) ≤ |m.delta| → |m.delta| ≤ 13/20 →
      get_days_to_expiry c8Now m.symbol = some days →
      entryOf c8Now 100000 (1/20) (13/20) m = some
        { symbol := m.symbol
          iv := m.markIV * 100
          delta := |m.delta|
          theta := |m.theta|
          vega := m.vega
          mark_price := m.markPrice
          days_to_expiry := days
          daily_rent_pct := m.markPrice / 100000 / (days : ℚ) * 100
          opportunity_score :=
            if 0 < m.vega then |m.theta| / m.vega * (m.markIV * 100) else m.markIV * 100 }) ∧
    (∀ sym : List Char, get_days_to_expiry c8Now sym =
      (parseExpiryDayNumber sym).map
        (fun (e : ℕ) => max 1 ⌊(((e : ℚ) * 86400) - c8Now) / 86400⌋)) :=
  claim_C8 c8Now [c8Quote] 100000 (1/20) (13/20) (by norm_num)

end IVMon
